import Mathlib

/-
Verification of the StockNote trading-journal backend.

Shallow embedding of the StockNote backend (Express/Mongoose) in Lean 4.
JavaScript numbers are modelled as rationals (ℚ); calendar dates as a
year/month/day triple; Mongo documents as Lean structures; the Mongoose
`pre('save')` hook, route handlers and aggregation pipelines as pure
functions on those structures.  `findOneAndUpdate` is modelled as a field
merge that does NOT run the save hook (standard Mongoose semantics).
-/

namespace StockNote

/-- Calendar date (year, month 1..12, day).  Stands in for a JS `Date`;
comparisons are lexicographic on (year, month, day), matching the order
of JS `Date` comparison for distinct calendar days. -/
structure Date where
  year : Int
  month : Nat
  day : Nat
deriving DecidableEq, Repr

/-- Strict `<` on dates, as a boolean (JS `d1 < d2`). -/
def Date.ltb (a b : Date) : Bool :=
  a.year < b.year ||
    (a.year == b.year && (a.month < b.month ||
      (a.month == b.month && a.day < b.day)))

/-- `toLocaleDateString('en-US', \x7b month: 'long' \x7d)`: the long English
month name of a 1-based month index. -/
def monthName : Nat → String
  | 1 => "January"
  | 2 => "February"
  | 3 => "March"
  | 4 => "April"
  | 5 => "May"
  | 6 => "June"
  | 7 => "July"
  | 8 => "August"
  | 9 => "September"
  | 10 => "October"
  | 11 => "November"
  | 12 => "December"
  | _ => "Invalid Date"

/-- The `status` enum of a journal entry: `opened` models the string
`'open'` (a Lean keyword, hence the spelling), `closed` models `'closed'`. -/
inductive Status where
  | opened
  | closed
deriving DecidableEq, Repr, BEq

/-- A persisted `JournalEntry` document (backend/models/JournalEntry.js).
`month`/`year` are the derived reporting bucket (schema-optional, filled by
the save hook; modelled with the defaults `""`/`0` for a never-saved
document); `exitPrice`/`exitDate` are schema-optional. -/
structure JournalEntry where
  user : Nat
  stockName : String
  entryPrice : ℚ
  entryDate : Date
  currentPrice : ℚ
  pnl : ℚ := 0
  pnlPercentage : ℚ := 0
  status : Status
  remarks : String := ""
  isTeamTrade : Bool := false
  month : String := ""
  year : Int := 0
  quantity : ℚ := 1
  exitPrice : Option ℚ := none
  exitDate : Option Date := none
deriving DecidableEq, Repr

/-- JS truthiness of an optional numeric field (`this.exitPrice` in the
hook's guard): absent and `0` are falsy. -/
def numTruthy : Option ℚ → Bool
  | none => false
  | some x => x != 0

/-- JS `x || 1` on a number (`this.quantity || 1`): `0` falls back to `1`. -/
def numOr1 (x : ℚ) : ℚ :=
  if x = 0 then 1 else x

/-- The `journalEntrySchema.pre('save')` hook: always regenerates
`month`/`year` from `entryDate`; for a closed trade with a truthy
`exitPrice` computes P&L from the exit price and mirrors it into
`currentPrice`, otherwise computes P&L from `currentPrice`. -/
def presave (e : JournalEntry) : JournalEntry :=
  let m := monthName e.entryDate.month
  let y := e.entryDate.year
  if e.status = Status.closed ∧ numTruthy e.exitPrice then
    { e with
      month := m
      year := y
      pnlPercentage := (e.exitPrice.getD 0 - e.entryPrice) * 100 / e.entryPrice
      pnl := (e.exitPrice.getD 0 - e.entryPrice) * numOr1 e.quantity
      currentPrice := e.exitPrice.getD 0 }
  else
    { e with
      month := m
      year := y
      pnlPercentage := (e.currentPrice - e.entryPrice) * 100 / e.entryPrice
      pnl := (e.currentPrice - e.entryPrice) * numOr1 e.quantity }

/-- Result row of `journalEntrySchema.statics.getUserStats` (the zero-filled
default object when the user has no entries, otherwise the single
`$group` row). -/
structure UserStats where
  totalTrades : Nat
  openTrades : Nat
  closedTrades : Nat
  totalPnL : ℚ
  avgPnLPercentage : ℚ
  teamTrades : Nat
deriving DecidableEq, Repr

/-- `getUserStats`: `$match` on the user, `$group` with `_id: null` counting
trades by status, summing `pnl`, averaging `pnlPercentage` and counting team
trades; `stats[0] || \x7b ...zeros \x7d` yields the zero record when no
document matched. -/
def getUserStats (entries : List JournalEntry) (userId : Nat) : UserStats :=
  let m := entries.filter (fun e => e.user == userId)
  if m.isEmpty then
    { totalTrades := 0, openTrades := 0, closedTrades := 0,
      totalPnL := 0, avgPnLPercentage := 0, teamTrades := 0 }
  else
    { totalTrades := m.length
      openTrades := (m.filter (fun e => e.status == Status.opened)).length
      closedTrades := (m.filter (fun e => e.status == Status.closed)).length
      totalPnL := (m.map JournalEntry.pnl).sum
      avgPnLPercentage := (m.map JournalEntry.pnlPercentage).sum / m.length
      teamTrades := (m.filter (fun e => e.isTeamTrade)).length }

/-- JS `year || new Date().getFullYear()` in `getMonthlyPerformance`:
an absent (or falsy `0`) year argument falls back to the current year. -/
def resolveYear (year : Option Int) (currentYear : Int) : Int :=
  match year with
  | none => currentYear
  | some y => if y ≠ 0 then y else currentYear

/-- One `$group` row of `getMonthlyPerformance`: `_id` is the month-name
grouping key, with the group's `pnl` sum, entry count and `pnlPercentage`
mean (`$avg` is `none` on an empty group, which cannot arise here). -/
structure MonthlyGroup where
  id : String
  totalPnL : ℚ
  totalTrades : Nat
  avgPnLPercentage : Option ℚ
deriving DecidableEq, Repr

/-- Mongo string-key sort order: lexicographic on the character sequence
(ascending byte order for these ASCII month names). -/
def strKeyLe (a b : String) : Prop :=
  a.data ≤ b.data

instance : DecidableRel strKeyLe := fun a b =>
  inferInstanceAs (Decidable (a.data ≤ b.data))

instance : IsTotal String strKeyLe :=
  ⟨fun a b => le_total a.data b.data⟩

instance : IsTrans String strKeyLe :=
  ⟨fun _ _ _ hab hbc => le_trans hab hbc⟩

/-- `journalEntrySchema.statics.getMonthlyPerformance`: `$match` on the
user and resolved year, `$group` by the stored month name, then
`$sort \x7b _id: 1 \x7d` — ascending by the month-name string key. -/
def getMonthlyPerformance (entries : List JournalEntry) (userId : Nat)
    (year : Option Int) (currentYear : Int) : List MonthlyGroup :=
  let yr := resolveYear year currentYear
  let m := entries.filter (fun e => e.user == userId && e.year == yr)
  let keys := (m.map JournalEntry.month).dedup
  (List.insertionSort strKeyLe keys).map (fun k =>
    let g := m.filter (fun e => e.month == k)
    { id := k
      totalPnL := (g.map JournalEntry.pnl).sum
      totalTrades := g.length
      avgPnLPercentage :=
        if g.isEmpty then none
        else some ((g.map JournalEntry.pnlPercentage).sum / g.length) })

/-- A persisted `FocusStock` document (backend/models/FocusStock.js); only
the fields the statistics read are carried, plus the price inputs of its
derived-return hook. -/
structure FocusStock where
  user : Nat
  symbol : String
  targetPrice : ℚ
  currentPrice : ℚ
  tradeTaken : Bool := false
  potentialReturn : ℚ := 0
  potentialReturnPercentage : ℚ := 0
deriving DecidableEq, Repr

/-- The `focusStockSchema.pre('save')` hook: derives the absolute and
percentage potential return from target and current price. -/
def focusPresave (f : FocusStock) : FocusStock :=
  { f with
    potentialReturn := f.targetPrice - f.currentPrice
    potentialReturnPercentage :=
      (f.targetPrice - f.currentPrice) / f.currentPrice * 100 }

/-- Result of `focusStockSchema.statics.getUserFocusStats`.
`averagePotentialReturn` is `$avg` over a `$cond` that maps taken stocks to
`null`, so it is `none` when the user has stocks but none pending; the
zero-filled default object carries the number `0` (`some 0`). -/
structure FocusStats where
  totalFocusStocks : Nat
  pendingStocks : Nat
  takenStocks : Nat
  averagePotentialReturn : Option ℚ
  conversionRate : ℚ
deriving DecidableEq, Repr

/-- `getUserFocusStats`: `$match` on the user, `$group` counting pending and
taken stocks and averaging `potentialReturnPercentage` over pending ones only
(taken contribute `null`, which `$avg` ignores); falls back to the zero
record, then computes the conversion rate with an explicit zero-total
guard. -/
def getUserFocusStats (stocks : List FocusStock) (userId : Nat) : FocusStats :=
  let m := stocks.filter (fun f => f.user == userId)
  let pend := m.filter (fun f => !f.tradeTaken)
  let tak := m.filter (fun f => f.tradeTaken)
  let total : Nat := if m.isEmpty then 0 else m.length
  let pending : Nat := if m.isEmpty then 0 else pend.length
  let taken : Nat := if m.isEmpty then 0 else tak.length
  let avg : Option ℚ :=
    if m.isEmpty then some 0
    else if pend.isEmpty then none
    else some ((pend.map FocusStock.potentialReturnPercentage).sum / pend.length)
  { totalFocusStocks := total
    pendingStocks := pending
    takenStocks := taken
    averagePotentialReturn := avg
    conversionRate :=
      if total > 0 then (taken : ℚ) / (total : ℚ) * 100 else 0 }

/-- JS `String.prototype.trim()`: strip leading and trailing whitespace
(structural-recursion model of the library function, so concrete instances
evaluate). -/
def jsTrim (s : String) : String :=
  String.mk (((s.data.dropWhile Char.isWhitespace).reverse.dropWhile
    Char.isWhitespace).reverse)

/-- JS `String.prototype.toUpperCase()` on the ASCII symbols this app
handles. -/
def jsToUpper (s : String) : String :=
  String.mk (s.data.map Char.toUpper)

/-- A client request body for POST/PUT `/api/journal-entries` (typed view of
`req.body`; `status` stays a raw string because the validator checks its
enum membership). -/
structure Submission where
  stockName : String
  entryPrice : ℚ
  entryDate : Date
  currentPrice : ℚ
  status : String
  remarks : Option String := none
  quantity : Option Int := none
  exitPrice : Option ℚ := none
  exitDate : Option Date := none
  isTeamTrade : Option Bool := none
deriving DecidableEq, Repr

/-- One express-validator error object: offending field path, message, and
the rejected value rendered as a string (as `errors.array()` reports it). -/
structure VError where
  path : String
  msg : String
  value : String
deriving DecidableEq, Repr

/-- String rendering of an optional value for a `VError`. -/
def renderOpt (o : Option String) : String :=
  match o with
  | none => "undefined"
  | some s => s

/-- The `validateJournalEntry` middleware chain
(backend/routes/journalEntries.js): collects one error per failing check,
in chain order, without bailing.  `entryDate`/`exitDate` well-formedness
(`isISO8601`) is carried by the `Date` type; `today` is the request-time
end-of-day bound that the future-date checks compare against.  The
`exitPrice`/`exitDate` chains are gated on `status === 'closed'`; on a
missing value both the `notEmpty` and the format check of a chain fail. -/
def validateJournalEntry (s : Submission) (today : Date) : List VError :=
  (if ¬(1 ≤ (jsTrim s.stockName).length ∧ (jsTrim s.stockName).length ≤ 20) then
    [{ path := "stockName",
       msg := "Stock name must be between 1 and 20 characters",
       value := s.stockName }]
  else []) ++
  (if s.entryPrice < 1 / 100 then
    [{ path := "entryPrice",
       msg := "Entry price must be greater than 0",
       value := toString s.entryPrice }]
  else []) ++
  (if Date.ltb today s.entryDate then
    [{ path := "entryDate",
       msg := "Entry date cannot be in the future",
       value := toString (repr s.entryDate) }]
  else []) ++
  (if s.currentPrice < 1 / 100 then
    [{ path := "currentPrice",
       msg := "Current price must be greater than 0",
       value := toString s.currentPrice }]
  else []) ++
  (if s.status ≠ "open" ∧ s.status ≠ "closed" then
    [{ path := "status",
       msg := "Status must be either open or closed",
       value := s.status }]
  else []) ++
  (match s.remarks with
   | none => []
   | some r =>
     if r.length > 500 then
       [{ path := "remarks",
          msg := "Remarks cannot exceed 500 characters", value := r }]
     else []) ++
  (match s.quantity with
   | none => []
   | some q =>
     if q < 1 then
       [{ path := "quantity",
          msg := "Quantity must be at least 1", value := toString q }]
     else []) ++
  (if s.status = "closed" then
    match s.exitPrice with
    | none =>
      [{ path := "exitPrice",
         msg := "Exit price is required for closed trades",
         value := "undefined" },
       { path := "exitPrice",
         msg := "Exit price must be greater than 0",
         value := "undefined" }]
    | some p =>
      if p < 1 / 100 then
        [{ path := "exitPrice",
           msg := "Exit price must be greater than 0",
           value := toString p }]
      else []
  else []) ++
  (if s.status = "closed" then
    match s.exitDate with
    | none =>
      [{ path := "exitDate",
         msg := "Exit date is required for closed trades",
         value := "undefined" },
       { path := "exitDate",
         msg := "Exit date must be a valid date",
         value := "undefined" }]
    | some d =>
      (if Date.ltb d s.entryDate then
        [{ path := "exitDate",
           msg := "Exit date must be after entry date",
           value := toString (repr d) }]
      else []) ++
      (if Date.ltb today d then
        [{ path := "exitDate",
           msg := "Exit date cannot be in the future",
           value := toString (repr d) }]
      else [])
  else [])

/-- `parseInt(req.body.quantity) || 1`: absent (NaN) or `0` falls back
to `1`. -/
def quantityOr1 (q : Option Int) : ℚ :=
  match q with
  | none => 1
  | some v => if v = 0 then 1 else (v : ℚ)

/-- The `entryData` object the POST handler builds and passes to
`new JournalEntry(...)`: exit fields are spread in only when the submitted
status is `'closed'`; `month`/`year` are left to the save hook. -/
def buildEntryData (s : Submission) (userId : Nat) : JournalEntry :=
  { user := userId
    stockName := jsTrim (jsToUpper s.stockName)
    entryPrice := s.entryPrice
    entryDate := s.entryDate
    currentPrice := s.currentPrice
    status := if s.status = "closed" then Status.closed else Status.opened
    quantity := quantityOr1 s.quantity
    isTeamTrade := s.isTeamTrade.getD false
    remarks := s.remarks.getD ""
    exitPrice := if s.status = "closed" then s.exitPrice else none
    exitDate := if s.status = "closed" then s.exitDate else none }

/-- Outcome of the POST `/api/journal-entries` handler: the batched
express-validator rejection, the handler's inline closed-trade rejection,
or the entry as persisted (built then run through the save hook). -/
inductive RouteResult where
  | validationFailed (errors : List String)
  | closedCheckFailed (errors : List String)
  | created (entry : JournalEntry)
deriving DecidableEq, Repr

/-- The POST `/api/journal-entries` handler: on a non-empty
`validationResult` it responds with `errors.array().map(err => err.msg)`
— the messages alone, in one batch; then its inline closed-trade checks
(each returning a single-element error list); then builds the entry and
saves it (running `presave`). -/
def postRoute (s : Submission) (today : Date) (userId : Nat) : RouteResult :=
  let errs := validateJournalEntry s today
  if errs ≠ [] then
    RouteResult.validationFailed (errs.map VError.msg)
  else if s.status = "closed" ∧
      (match s.exitPrice with | none => true | some p => decide (p ≤ 0)) = true then
    RouteResult.closedCheckFailed
      ["Exit price is required and must be greater than 0 for closed trades"]
  else if s.status = "closed" ∧ s.exitDate = none then
    RouteResult.closedCheckFailed ["Exit date is required for closed trades"]
  else
    RouteResult.created (presave (buildEntryData s userId))

/-- The PUT `/api/journal-entries/:id` handler's `findOneAndUpdate`
applied to the stored entry: `$set` of the `updateData` fields
(`stockName..remarks` plus the route-computed `month`/`year`; exit fields
only when the submitted status is `'closed'`, otherwise left as stored).
`findOneAndUpdate` does not run the `pre('save')` hook, so `pnl` and
`pnlPercentage` keep their stored values. -/
def applyPut (e : JournalEntry) (s : Submission) : JournalEntry :=
  { e with
    stockName := jsTrim (jsToUpper s.stockName)
    entryPrice := s.entryPrice
    entryDate := s.entryDate
    currentPrice := s.currentPrice
    status := if s.status = "closed" then Status.closed else Status.opened
    quantity := quantityOr1 s.quantity
    isTeamTrade := s.isTeamTrade.getD false
    remarks := s.remarks.getD ""
    month := monthName s.entryDate.month
    year := s.entryDate.year
    exitPrice := if s.status = "closed" then s.exitPrice else e.exitPrice
    exitDate := if s.status = "closed" then s.exitDate else e.exitDate }

/-- Raw Finnhub `/quote` payload (`c` current, `d` change, `dp` change
percent, `h` high, `l` low, `o` open, `pc` previous close). -/
structure QuoteData where
  c : ℚ
  d : ℚ
  dp : ℚ
  h : ℚ
  l : ℚ
  o : ℚ
  pc : ℚ
deriving DecidableEq, Repr

/-- A quote as the services hand it to callers.  A successful fetch fills
every price field; the per-symbol fallback object of `getMultipleQuotes`
carries only the symbol, a `none` current price and the error message.
`openPrice` models the JS field `open` (a Lean keyword); the wall-clock
`timestamp` field is omitted. -/
structure Quote where
  symbol : String
  currentPrice : Option ℚ := none
  change : Option ℚ := none
  changePercent : Option ℚ := none
  high : Option ℚ := none
  low : Option ℚ := none
  openPrice : Option ℚ := none
  previousClose : Option ℚ := none
  error : Option String := none
deriving DecidableEq, Repr

/-- `finnhubService.getQuote`: the provider call's outcome is passed in as
an `Except` (network error, timeout or missing API key on the `.error`
side).  All-zero `c/h/l/o` data is treated as an invalid symbol.  Any
failure is re-thrown wrapped in `Failed to fetch quote for ...` — the
function propagates the exception (`Except.error`) to its caller. -/
def finnhubGetQuote (symbol : String) (provider : Except String QuoteData) :
    Except String Quote :=
  match provider with
  | Except.error msg =>
    Except.error ("Failed to fetch quote for " ++ symbol ++ ": " ++ msg)
  | Except.ok data =>
    if data.c = 0 ∧ data.h = 0 ∧ data.l = 0 ∧ data.o = 0 then
      Except.error ("Failed to fetch quote for " ++ symbol ++
        ": Invalid symbol or no data available")
    else
      Except.ok
        { symbol := jsToUpper symbol
          currentPrice := some data.c
          change := some data.d
          changePercent := some data.dp
          high := some data.h
          low := some data.l
          openPrice := some data.o
          previousClose := some data.pc }

/-- The per-symbol fallback object `getMultipleQuotes` builds in its
`.catch`: upper-cased symbol, the error message, and a `null`
current price. -/
def fallbackQuote (symbol : String) (msg : String) : Quote :=
  { symbol := jsToUpper symbol
    error := some msg
    currentPrice := none }

/-- `finnhubService.getMultipleQuotes`: one `getQuote` per symbol, each with
its own `.catch` producing the fallback object, so the batch itself always
resolves to a full-length list. -/
def finnhubGetMultipleQuotes (symbols : List String)
    (provider : String → Except String QuoteData) : List Quote :=
  symbols.map (fun s =>
    match finnhubGetQuote s (provider s) with
    | Except.ok q => q
    | Except.error m => fallbackQuote s m)

/-- The JSON envelope the frontend `apiService.makeRequest` resolves to for
a single-quote call. -/
structure ApiResp where
  success : Bool
  data : Option Quote
deriving DecidableEq, Repr

/-- Frontend `MarketService.getQuote` (cache miss path): an HTTP/parse
failure is caught and becomes `null`; a response without `success` and
truthy `data` also yields ` null`; otherwise the quote is returned. -/
def marketServiceGetQuote (resp : Except String ApiResp) : Option Quote :=
  match resp with
  | Except.error _ => none
  | Except.ok r => if r.success then r.data else none

/-- Sample closed entry of the spec's §8 scenario: AAPL bought at 150,
closed at 160, quantity 10. -/
def sampleClosedEntry : JournalEntry :=
  { user := 1
    stockName := "AAPL"
    entryPrice := 150
    entryDate := { year := 2024, month := 1, day := 15 }
    currentPrice := 155
    status := Status.closed
    quantity := 10
    exitPrice := some 160
    exitDate := some { year := 2024, month := 2, day := 1 } }

/-- C9: the pre-save P&L computation is idempotent — running the hook a
second time on an entry whose inputs are unchanged since the first run
yields exactly the same `pnl`, `pnlPercentage`, `month`, `year` and
`currentPrice` as one run, for every entry, open or closed (the first run
on a closed entry overwrites `currentPrice` with `exitPrice`, which the
closed branch never reads). -/
theorem presave_idempotent (e : JournalEntry) :
    presave (presave e) = presave e := by
  by_cases h : e.status = Status.closed ∧ numTruthy e.exitPrice
  · simp [presave, h]
  · simp [presave, h]

/-- C1: for every valid entry run through the pre-save computation — valid
meaning a nonzero quantity and, when closed, a present positive exit
price — a closed entry gets `pnl = (exitPrice - entryPrice) * quantity`,
`pnlPercentage = (exitPrice - entryPrice) * 100 / entryPrice` and
`currentPrice = exitPrice`, and an open entry gets
`pnl = (currentPrice - entryPrice) * quantity` and
`pnlPercentage = (currentPrice - entryPrice) * 100 / entryPrice`. -/
theorem presave_pnl_spec (e : JournalEntry) (p : ℚ) (hq : e.quantity ≠ 0) :
    (e.status = Status.closed → e.exitPrice = some p → p ≠ 0 →
      (presave e).pnl = (p - e.entryPrice) * e.quantity ∧
      (presave e).pnlPercentage = (p - e.entryPrice) * 100 / e.entryPrice ∧
      (presave e).currentPrice = p) ∧
    (e.status = Status.opened →
      (presave e).pnl = (e.currentPrice - e.entryPrice) * e.quantity ∧
      (presave e).pnlPercentage =
        (e.currentPrice - e.entryPrice) * 100 / e.entryPrice) := by
  constructor
  · intro hs hp hpt
    have hcond : e.status = Status.closed ∧ numTruthy e.exitPrice := by
      refine ⟨hs, ?_⟩
      simp [numTruthy, hp, hpt]
    simp [presave, hcond, hp, numTruthy, hpt, numOr1, hq]
  · intro hs
    have hcond : ¬(e.status = Status.closed ∧ numTruthy e.exitPrice) := by
      simp [hs]
    simp [presave, hcond, numOr1, hq]

/-- Witness for C1 on the spec's §8 scenario entry: pnl 100, percentage
20/3 ≈ 6.667, current price mirrored to 160. -/
theorem presave_pnl_spec_witness :
    (presave sampleClosedEntry).pnl = 100 ∧
    (presave sampleClosedEntry).pnlPercentage = 20 / 3 ∧
    (presave sampleClosedEntry).currentPrice = 160 := by
  have h :=
    (presave_pnl_spec sampleClosedEntry 160
      (by norm_num [sampleClosedEntry])).1 rfl rfl (by norm_num)
  refine ⟨?_, ?_, ?_⟩
  · rw [h.1]; norm_num [sampleClosedEntry]
  · rw [h.2.1]; norm_num [sampleClosedEntry]
  · exact h.2.2

/-- A stored open entry as the create path persisted it: bought at 100,
current price 110, quantity 1 — so its saved `pnl` is 10. -/
def storedOpenEntry : JournalEntry :=
  presave
    { user := 1
      stockName := "TCS"
      entryPrice := 100
      entryDate := { year := 2024, month := 1, day := 10 }
      currentPrice := 110
      status := Status.opened
      quantity := 1 }

/-- A valid PUT body for `storedOpenEntry` that changes only the current
price, from 110 to 150. -/
def putSubmission : Submission :=
  { stockName := "tcs"
    entryPrice := 100
    entryDate := { year := 2024, month := 1, day := 10 }
    currentPrice := 150
    status := "open"
    quantity := some 1 }

/-- Request-time end-of-day bound used by the concrete scenarios. -/
def sampleToday : Date := { year := 2024, month := 12, day := 31 }

/-- C2 (code-bug evidence): the PUT path does not recompute P&L.  The
update body is accepted by the validator and `findOneAndUpdate` stores the
new current price 150, but the stored `pnl` stays 10 — the value saved
when the current price was 110 — while recomputing from the updated inputs
(as the create path's save hook would) gives 50.  `findOneAndUpdate`
never runs the `pre('save')` hook, so this write path skips the
recomputation the spec requires on every update. -/
theorem put_update_skips_pnl_recompute :
    validateJournalEntry putSubmission sampleToday = [] ∧
    (applyPut storedOpenEntry putSubmission).currentPrice = 150 ∧
    (applyPut storedOpenEntry putSubmission).pnl = 10 ∧
    (presave (applyPut storedOpenEntry putSubmission)).pnl = 50 ∧
    (applyPut storedOpenEntry putSubmission).pnl ≠
      (presave (applyPut storedOpenEntry putSubmission)).pnl := by
  refine ⟨?_, ?_, ?_, ?_, ?_⟩ <;>
    · norm_num [validateJournalEntry, putSubmission, sampleToday,
        storedOpenEntry, applyPut, presave, Date.ltb, numTruthy, numOr1,
        quantityOr1, monthName]
      all_goals decide

/-- A stored closed entry as the create path persisted it: bought at 100,
closed at 160 (so `currentPrice` was mirrored to 160 by the save hook). -/
def storedClosedEntry : JournalEntry :=
  presave
    { user := 1
      stockName := "INFY"
      entryPrice := 100
      entryDate := { year := 2024, month := 1, day := 10 }
      currentPrice := 120
      status := Status.closed
      quantity := 2
      exitPrice := some 160
      exitDate := some { year := 2024, month := 3, day := 1 } }

/-- A valid PUT body that flips `storedClosedEntry` back to open while also
supplying (to-be-ignored) exit fields. -/
def reopenSubmission : Submission :=
  { stockName := "INFY"
    entryPrice := 100
    entryDate := { year := 2024, month := 1, day := 10 }
    currentPrice := 120
    status := "open"
    quantity := some 2
    exitPrice := some 999
    exitDate := some { year := 2024, month := 4, day := 1 } }

/-- C5 counterexample: updating a previously closed entry back to open
does NOT clear the stored exit fields.  The reopening body is accepted by
the validator and the update stores status `open`, yet the record still
carries the old `exitPrice = 160` and `exitDate` — the claim says the
stored record carries no exit fields after such an update. -/
theorem reopen_keeps_stored_exit_fields :
    validateJournalEntry reopenSubmission sampleToday = [] ∧
    (applyPut storedClosedEntry reopenSubmission).status = Status.opened ∧
    (applyPut storedClosedEntry reopenSubmission).exitPrice = some 160 ∧
    (applyPut storedClosedEntry reopenSubmission).exitDate =
      some { year := 2024, month := 3, day := 1 } := by
  refine ⟨?_, ?_, ?_, ?_⟩ <;>
    norm_num [validateJournalEntry, reopenSubmission, sampleToday,
      storedClosedEntry, applyPut, presave, Date.ltb, numTruthy, numOr1,
      quantityOr1, monthName] <;>
    decide

/-- An open-trade POST body that also supplies exit fields. -/
def openCreateSubmission : Submission :=
  { stockName := "WIPRO"
    entryPrice := 50
    entryDate := { year := 2024, month := 2, day := 5 }
    currentPrice := 55
    status := "open"
    exitPrice := some 999
    exitDate := some { year := 2024, month := 3, day := 1 } }

/-- C5 (amended): on any write whose submitted status is not `'closed'`,
the supplied exit values have no effect — the create path stores an entry
with no exit fields (before and after the save hook) and is insensitive to
the supplied exit values, and the update path is likewise insensitive to
them but keeps whatever exit fields were already stored (it does not clear
them). -/
theorem open_write_ignores_exit_fields (s : Submission) (uid : Nat)
    (e : JournalEntry) (p : Option ℚ) (d : Option Date)
    (hs : s.status ≠ "closed") :
    (buildEntryData s uid).exitPrice = none ∧
    (buildEntryData s uid).exitDate = none ∧
    (presave (buildEntryData s uid)).exitPrice = none ∧
    (presave (buildEntryData s uid)).exitDate = none ∧
    buildEntryData { s with exitPrice := p, exitDate := d } uid =
      buildEntryData s uid ∧
    applyPut e { s with exitPrice := p, exitDate := d } = applyPut e s ∧
    (applyPut e s).exitPrice = e.exitPrice ∧
    (applyPut e s).exitDate = e.exitDate := by
  refine ⟨?_, ?_, ?_, ?_, ?_, ?_, ?_, ?_⟩ <;>
    simp [buildEntryData, applyPut, presave, numTruthy, hs]

/-- Witness for C5 (amended) at a concrete open POST body carrying exit
values and the stored closed entry. -/
theorem open_write_ignores_exit_fields_witness :
    ("open" : String) ≠ "closed" ∧
    ((buildEntryData openCreateSubmission 1).exitPrice = none ∧
     (buildEntryData openCreateSubmission 1).exitDate = none ∧
     (presave (buildEntryData openCreateSubmission 1)).exitPrice = none ∧
     (presave (buildEntryData openCreateSubmission 1)).exitDate = none ∧
     buildEntryData
        { openCreateSubmission with
          exitPrice := some 77, exitDate := some sampleToday } 1 =
       buildEntryData openCreateSubmission 1 ∧
     applyPut storedClosedEntry
        { openCreateSubmission with
          exitPrice := some 77, exitDate := some sampleToday } =
       applyPut storedClosedEntry openCreateSubmission ∧
     (applyPut storedClosedEntry openCreateSubmission).exitPrice =
       storedClosedEntry.exitPrice ∧
     (applyPut storedClosedEntry openCreateSubmission).exitDate =
       storedClosedEntry.exitDate) :=
  ⟨by decide,
   open_write_ignores_exit_fields openCreateSubmission 1 storedClosedEntry
     (some 77) (some sampleToday) (by decide)⟩

/-- What an empty validator batch guarantees about the submission: prices
at least the `0.01` float bound, and, for a closed trade, a present exit
price at least `0.01` and a present exit date (shared by the positivity
and batching arguments). -/
lemma validate_nil_components {s : Submission} {today : Date}
    (h : validateJournalEntry s today = []) :
    ¬(s.entryPrice < 1 / 100) ∧ ¬(s.currentPrice < 1 / 100) ∧
    (s.status = "closed" → ∃ p, s.exitPrice = some p ∧ ¬(p < 1 / 100)) ∧
    (s.status = "closed" → s.exitDate ≠ none) := by
  refine ⟨?_, ?_, ?_, ?_⟩
  · intro hlt
    have hm : (⟨"entryPrice", "Entry price must be greater than 0",
        toString s.entryPrice⟩ : VError) ∈ validateJournalEntry s today := by
      unfold validateJournalEntry
      exact List.mem_append_left _ (List.mem_append_left _
        (List.mem_append_left _ (List.mem_append_left _
          (List.mem_append_left _ (List.mem_append_left _
            (List.mem_append_left _
              (List.mem_append_right _ (by simpa using hlt))))))))
    rw [h] at hm; simp at hm
  · intro hlt
    have hm : (⟨"currentPrice", "Current price must be greater than 0",
        toString s.currentPrice⟩ : VError) ∈ validateJournalEntry s today := by
      unfold validateJournalEntry
      exact List.mem_append_left _ (List.mem_append_left _
        (List.mem_append_left _ (List.mem_append_left _
          (List.mem_append_left _
            (List.mem_append_right _ (by simpa using hlt))))))
    rw [h] at hm; simp at hm
  · intro hst
    cases hp : s.exitPrice with
    | none =>
      exfalso
      have hm : (⟨"exitPrice", "Exit price is required for closed trades",
          "undefined"⟩ : VError) ∈ validateJournalEntry s today := by
        unfold validateJournalEntry
        exact List.mem_append_left _
          (List.mem_append_right _ (by simp [hst, hp]))
      rw [h] at hm; simp at hm
    | some p =>
      refine ⟨p, rfl, ?_⟩
      intro hlt
      have hm : (⟨"exitPrice", "Exit price must be greater than 0",
          toString p⟩ : VError) ∈ validateJournalEntry s today := by
        unfold validateJournalEntry
        exact List.mem_append_left _
          (List.mem_append_right _ (by simpa [hst, hp] using hlt))
      rw [h] at hm; simp at hm
  · intro hst hd
    have hm : (⟨"exitDate", "Exit date is required for closed trades",
        "undefined"⟩ : VError) ∈ validateJournalEntry s today := by
      unfold validateJournalEntry
      exact List.mem_append_right _ (by simp [hst, hd])
    rw [h] at hm; simp at hm

/-- An invalid POST body violating two rules at once: empty stock name and
a negative entry price. -/
def badSubmission : Submission :=
  { stockName := ""
    entryPrice := -5
    entryDate := { year := 2024, month := 1, day := 10 }
    currentPrice := 100
    status := "open" }

/-- Whether `pat` occurs contiguously in a character list. -/
def charsInfix (pat : List Char) : List Char → Bool
  | [] => pat.isEmpty
  | c :: rest => pat.isPrefixOf (c :: rest) || charsInfix pat rest

/-- Substring test (JS `String.prototype.includes`), used to ask whether a
reported error string mentions a field name or a rejected value. -/
def strContains (s pat : String) : Bool :=
  charsInfix pat.data s.data

/-- C4 counterexample: on a body violating two rules at once the POST
handler does answer with both violations in one batch, but the batch is
`errors.array().map(err => err.msg)` — bare message strings.  Neither
reported string mentions the offending field names (`stockName`,
`entryPrice`) nor the rejected value `-5`, although the validator had
collected exactly those paths, so the response is not tagged with field
name and rejected value as claimed. -/
theorem post_response_drops_field_tags :
    postRoute badSubmission sampleToday 1 =
      RouteResult.validationFailed
        ["Stock name must be between 1 and 20 characters",
         "Entry price must be greater than 0"] ∧
    (validateJournalEntry badSubmission sampleToday).map VError.path =
      ["stockName", "entryPrice"] ∧
    (["Stock name must be between 1 and 20 characters",
      "Entry price must be greater than 0"].all (fun m =>
        !(strContains m "stockName") && !(strContains m "entryPrice") &&
        !(strContains m "-5"))) = true := by
  refine ⟨?_, ?_, ?_⟩ <;>
    norm_num [postRoute, validateJournalEntry, badSubmission, sampleToday,
      Date.ltb, strContains] <;>
    decide

/-- C4 (amended): for every submission the POST handler rejects for
validation, the response carries every violated rule's human-readable
message in one batch (not fail-fast across rules), and the handler's
inline fail-fast closed-trade checks are unreachable — no request ever
gets their single-error response; but the batch holds the messages alone,
the field names and rejected values collected by the validator are dropped
from the response. -/
theorem post_validation_batch (s : Submission) (today : Date) (uid : Nat)
    (es : List String) (err : VError)
    (herr : err ∈ validateJournalEntry s today) :
    postRoute s today uid =
      RouteResult.validationFailed
        ((validateJournalEntry s today).map VError.msg) ∧
    err.msg ∈ (validateJournalEntry s today).map VError.msg ∧
    postRoute s today uid ≠ RouteResult.closedCheckFailed es := by
  have hne : validateJournalEntry s today ≠ [] := by
    intro hnil; rw [hnil] at herr; simp at herr
  refine ⟨?_, ?_, ?_⟩
  · simp [postRoute, hne]
  · exact List.mem_map_of_mem VError.msg herr
  · simp [postRoute, hne]

/-- Witness for C4 (amended) at the concrete two-violation body. -/
theorem post_validation_batch_witness :
    (⟨"stockName", "Stock name must be between 1 and 20 characters",
      ""⟩ : VError) ∈ validateJournalEntry badSubmission sampleToday ∧
    (postRoute badSubmission sampleToday 1 =
      RouteResult.validationFailed
        ((validateJournalEntry badSubmission sampleToday).map VError.msg) ∧
     "Stock name must be between 1 and 20 characters" ∈
       (validateJournalEntry badSubmission sampleToday).map VError.msg ∧
     postRoute badSubmission sampleToday 1 ≠
       RouteResult.closedCheckFailed ["Exit date is required for closed trades"]) := by
  have hmem : (⟨"stockName", "Stock name must be between 1 and 20 characters",
      ""⟩ : VError) ∈ validateJournalEntry badSubmission sampleToday := by
    norm_num [validateJournalEntry, badSubmission, sampleToday, Date.ltb]
    exact Or.inl (by decide)
  exact ⟨hmem,
    post_validation_batch badSubmission sampleToday 1
      ["Exit date is required for closed trades"] _ hmem⟩

/-- A valid open-trade POST body (entry at 40, current 42). -/
def validOpenSubmission : Submission :=
  { stockName := "SBIN"
    entryPrice := 40
    entryDate := { year := 2024, month := 5, day := 2 }
    currentPrice := 42
    status := "open" }

/-- C8: a submission the validator accepts has strictly positive entry and
current prices (the float rule demands ≥ 0.01), and the entry the create
path builds from it keeps that entry price, so the denominator at the
pre-save hook's division sites is nonzero. -/
theorem validator_ensures_positive_prices (s : Submission) (today : Date)
    (uid : Nat) (h : validateJournalEntry s today = []) :
    0 < s.entryPrice ∧ 0 < s.currentPrice ∧
    (buildEntryData s uid).entryPrice = s.entryPrice ∧
    (buildEntryData s uid).entryPrice ≠ 0 := by
  obtain ⟨h1, h2, -, -⟩ := validate_nil_components h
  have hp : (1 : ℚ) / 100 ≤ s.entryPrice := not_lt.mp h1
  have hc : (1 : ℚ) / 100 ≤ s.currentPrice := not_lt.mp h2
  have hp0 : 0 < s.entryPrice := lt_of_lt_of_le (by norm_num) hp
  refine ⟨hp0, lt_of_lt_of_le (by norm_num) hc, ?_, ?_⟩
  · simp [buildEntryData]
  · simp [buildEntryData]
    exact ne_of_gt hp0

/-- Witness for C8 at a concrete valid open body. -/
theorem validator_ensures_positive_prices_witness :
    validateJournalEntry validOpenSubmission sampleToday = [] ∧
    (0 < validOpenSubmission.entryPrice ∧
     0 < validOpenSubmission.currentPrice ∧
     (buildEntryData validOpenSubmission 1).entryPrice =
       validOpenSubmission.entryPrice ∧
     (buildEntryData validOpenSubmission 1).entryPrice ≠ 0) := by
  have h : validateJournalEntry validOpenSubmission sampleToday = [] := by
    norm_num [validateJournalEntry, validOpenSubmission, sampleToday, Date.ltb]
    decide
  exact ⟨h, validator_ensures_positive_prices validOpenSubmission sampleToday 1 h⟩

/-- C6: the focus-stock statistics average `potentialReturnPercentage` over
pending stocks only — with pending stocks present the average is their
percentage sum over their count, taken stocks contributing nothing, and
with stocks present but none pending it is `null` rather than an average
over taken ones — and the conversion rate is takenStocks over
totalFocusStocks times 100, with the zero-total case defined as exactly
0. -/
theorem focus_stats_spec (stocks : List FocusStock) (uid : Nat) :
    ((stocks.filter (fun f => f.user == uid)).filter
        (fun f => !f.tradeTaken) ≠ [] →
      (getUserFocusStats stocks uid).averagePotentialReturn =
        some ((((stocks.filter (fun f => f.user == uid)).filter
            (fun f => !f.tradeTaken)).map
              FocusStock.potentialReturnPercentage).sum /
          ((stocks.filter (fun f => f.user == uid)).filter
            (fun f => !f.tradeTaken)).length)) ∧
    (stocks.filter (fun f => f.user == uid) ≠ [] →
      (stocks.filter (fun f => f.user == uid)).filter
        (fun f => !f.tradeTaken) = [] →
      (getUserFocusStats stocks uid).averagePotentialReturn = none) ∧
    (getUserFocusStats stocks uid).totalFocusStocks =
      (stocks.filter (fun f => f.user == uid)).length ∧
    (getUserFocusStats stocks uid).takenStocks =
      ((stocks.filter (fun f => f.user == uid)).filter
        (fun f => f.tradeTaken)).length ∧
    (getUserFocusStats stocks uid).conversionRate =
      (if (getUserFocusStats stocks uid).totalFocusStocks = 0 then 0
       else ((getUserFocusStats stocks uid).takenStocks : ℚ) /
         ((getUserFocusStats stocks uid).totalFocusStocks : ℚ) * 100) := by
  by_cases hm : stocks.filter (fun f => f.user == uid) = []
  · refine ⟨?_, ?_, ?_, ?_, ?_⟩ <;>
      simp [getUserFocusStats, hm]
  · have hne : ¬(stocks.filter (fun f => f.user == uid)).isEmpty := by
      simpa [List.isEmpty_iff] using hm
    by_cases hp : (stocks.filter (fun f => f.user == uid)).filter
        (fun f => !f.tradeTaken) = []
    · refine ⟨?_, ?_, ?_, ?_, ?_⟩ <;>
        simp [getUserFocusStats, hne, hp, List.isEmpty_iff, hm,
          List.length_eq_zero]
    · have hpe : ¬((stocks.filter (fun f => f.user == uid)).filter
          (fun f => !f.tradeTaken)).isEmpty := by
        simpa [List.isEmpty_iff] using hp
      refine ⟨?_, ?_, ?_, ?_, ?_⟩ <;>
        simp [getUserFocusStats, hne, hpe, List.isEmpty_iff, hm,
          List.length_eq_zero]

/-- A two-item focus list for user 7: one pending stock with potential
return percentage 25, one taken stock with percentage 80. -/
def sampleFocusStocks : List FocusStock :=
  [focusPresave
    { user := 7, symbol := "AAPL", targetPrice := 250, currentPrice := 200 },
   focusPresave
    { user := 7, symbol := "TCS", targetPrice := 90, currentPrice := 50,
      tradeTaken := true }]

/-- Witness for C6: with one pending (25%) and one taken (80%) stock the
average is 25 — the taken stock is excluded — and the conversion rate is
1/2 × 100 = 50. -/
theorem focus_stats_spec_witness :
    (sampleFocusStocks.filter (fun f => f.user == 7)).filter
      (fun f => !f.tradeTaken) ≠ [] ∧
    (getUserFocusStats sampleFocusStocks 7).averagePotentialReturn =
      some 25 ∧
    (getUserFocusStats sampleFocusStocks 7).conversionRate = 50 := by
  have h := focus_stats_spec sampleFocusStocks 7
  have hne : (sampleFocusStocks.filter (fun f => f.user == 7)).filter
      (fun f => !f.tradeTaken) ≠ [] := by
    norm_num [sampleFocusStocks, focusPresave]
  refine ⟨hne, ?_, ?_⟩
  · rw [h.1 hne]
    norm_num [sampleFocusStocks, focusPresave]
  · rw [h.2.2.2.2]
    norm_num [getUserFocusStats, sampleFocusStocks, focusPresave]

/-- C7: for a user with no journal entries the trade-statistics query
returns the all-zero record (every count and sum 0) rather than null,
absent or an error, and likewise the focus-stock statistics on a user with
no focus stocks return the all-zero record with conversion rate 0. -/
theorem stats_zero_record (entries : List JournalEntry)
    (stocks : List FocusStock) (uid : Nat)
    (h1 : entries.filter (fun e => e.user == uid) = [])
    (h2 : stocks.filter (fun f => f.user == uid) = []) :
    getUserStats entries uid =
      { totalTrades := 0, openTrades := 0, closedTrades := 0,
        totalPnL := 0, avgPnLPercentage := 0, teamTrades := 0 } ∧
    getUserFocusStats stocks uid =
      { totalFocusStocks := 0, pendingStocks := 0, takenStocks := 0,
        averagePotentialReturn := some 0, conversionRate := 0 } := by
  constructor
  · simp [getUserStats, h1]
  · simp [getUserFocusStats, h2]

/-- Witness for C7: a store holding only other users' records is empty for
user 2, and both statistics come back as the zero records. -/
theorem stats_zero_record_witness :
    ([storedOpenEntry].filter (fun e => e.user == 2) = [] ∧
     sampleFocusStocks.filter (fun f => f.user == 2) = []) ∧
    (getUserStats [storedOpenEntry] 2 =
      { totalTrades := 0, openTrades := 0, closedTrades := 0,
        totalPnL := 0, avgPnLPercentage := 0, teamTrades := 0 } ∧
     getUserFocusStats sampleFocusStocks 2 =
      { totalFocusStocks := 0, pendingStocks := 0, takenStocks := 0,
        averagePotentialReturn := some 0, conversionRate := 0 }) := by
  have ha : [storedOpenEntry].filter (fun e => e.user == 2) = [] := by
    norm_num [storedOpenEntry, presave, numTruthy]
  have hb : sampleFocusStocks.filter (fun f => f.user == 2) = [] := by
    norm_num [sampleFocusStocks, focusPresave]
  exact ⟨⟨ha, hb⟩, stats_zero_record [storedOpenEntry] sampleFocusStocks 2 ha hb⟩

/-- C10 counterexample: on a provider failure the backend single-quote
service does NOT return an unavailable result — `finnhubService.getQuote`
re-throws, so its caller receives a propagating exception (`Except.error`),
not a per-symbol result with a null price. -/
theorem finnhub_getQuote_raises_on_failure :
    finnhubGetQuote "AAPL" (Except.error "timeout") =
      Except.error "Failed to fetch quote for AAPL: timeout" ∧
    (finnhubGetQuote "AAPL" (Except.error "timeout")).isOk = false := by
  constructor
  · rfl
  · rfl

/-- C10 (amended): the per-symbol unavailable fallback holds on the batch
path and at the frontend boundary, not in the backend single-quote
service.  `getMultipleQuotes` always yields one result per requested
symbol; a symbol whose fetch failed yields the explicit fallback object
(null current price, the error message) while every symbol whose fetch
succeeded still has its quote in the batch; and the frontend client's
`getQuote` maps any failed or unsuccessful response to `null` instead of
raising.  The backend `finnhubService.getQuote` itself, however,
propagates failures (see the counterexample). -/
theorem quote_batch_fallback_spec (symbols : List String)
    (provider : String → Except String QuoteData) (s : String) (q : Quote)
    (msg emsg : String) (r : ApiResp) (hs : s ∈ symbols) :
    (finnhubGetMultipleQuotes symbols provider).length = symbols.length ∧
    (finnhubGetQuote s (provider s) = Except.error msg →
      fallbackQuote s msg ∈ finnhubGetMultipleQuotes symbols provider) ∧
    (finnhubGetQuote s (provider s) = Except.ok q →
      q ∈ finnhubGetMultipleQuotes symbols provider) ∧
    marketServiceGetQuote (Except.error emsg) = none ∧
    (r.success = false → marketServiceGetQuote (Except.ok r) = none) := by
  refine ⟨?_, ?_, ?_, ?_, ?_⟩
  · simp [finnhubGetMultipleQuotes]
  · intro hfail
    have := List.mem_map_of_mem
      (fun t => match finnhubGetQuote t (provider t) with
        | Except.ok q => q
        | Except.error m => fallbackQuote t m) hs
    simpa [finnhubGetMultipleQuotes, hfail] using this
  · intro hok
    have := List.mem_map_of_mem
      (fun t => match finnhubGetQuote t (provider t) with
        | Except.ok q => q
        | Except.error m => fallbackQuote t m) hs
    simpa [finnhubGetMultipleQuotes, hok] using this
  · rfl
  · intro hr
    simp [marketServiceGetQuote, hr]

/-- A provider state for the witness: AAPL times out, MSFT returns data. -/
def sampleProvider (s : String) : Except String QuoteData :=
  if s = "AAPL" then Except.error "timeout"
  else Except.ok
    { c := 430, d := 2, dp := 1, h := 432, l := 425, o := 427, pc := 428 }

/-- Witness for C10 (amended): in the batch [AAPL, MSFT] with AAPL's
provider call failing, the batch still has 2 results, AAPL's slot is the
explicit fallback, MSFT's successful quote is still present, and the
frontend client yields `null` on a failed response. -/
theorem quote_batch_fallback_spec_witness :
    ("MSFT" ∈ ["AAPL", "MSFT"] ∧ "AAPL" ∈ ["AAPL", "MSFT"]) ∧
    (finnhubGetMultipleQuotes ["AAPL", "MSFT"] sampleProvider).length = 2 ∧
    fallbackQuote "AAPL" "Failed to fetch quote for AAPL: timeout" ∈
      finnhubGetMultipleQuotes ["AAPL", "MSFT"] sampleProvider ∧
    ({ symbol := "MSFT", currentPrice := some 430, change := some 2,
       changePercent := some 1, high := some 432, low := some 425,
       openPrice := some 427, previousClose := some 428 } : Quote) ∈
      finnhubGetMultipleQuotes ["AAPL", "MSFT"] sampleProvider ∧
    marketServiceGetQuote (Except.error "network down") = none := by
  have hA :=
    quote_batch_fallback_spec ["AAPL", "MSFT"] sampleProvider "AAPL"
      (fallbackQuote "AAPL" "x") "Failed to fetch quote for AAPL: timeout"
      "network down" { success := false, data := none } (by decide)
  have hM :=
    quote_batch_fallback_spec ["AAPL", "MSFT"] sampleProvider "MSFT"
      { symbol := "MSFT", currentPrice := some 430, change := some 2,
        changePercent := some 1, high := some 432, low := some 425,
        openPrice := some 427, previousClose := some 428 }
      "unused" "network down" { success := false, data := none } (by decide)
  refine ⟨⟨by decide, by decide⟩, hA.1, ?_, ?_, hA.2.2.2.1⟩
  · exact hA.2.1 (by rfl)
  · exact hM.2.2.1 (by rfl)

/-- Peeling the month filter off the user-and-year filter gives the flat
three-condition filter (the set each monthly group aggregates). -/
lemma month_group_filter (entries : List JournalEntry) (uid : Nat)
    (yr : Int) (k : String) :
    (entries.filter (fun e => e.user == uid && e.year == yr)).filter
        (fun e => e.month == k) =
      entries.filter
        (fun e => e.user == uid && e.year == yr && e.month == k) := by
  rw [List.filter_filter]
  apply List.filter_congr
  intro e _
  cases hu : (e.user == uid) <;> cases hy : (e.year == yr) <;>
    cases hm : (e.month == k) <;> rfl

/-- C3: the monthly-performance query takes the user's entries of the
resolved report year — an absent year argument resolving to the current
year, a nonzero explicit year resolving to itself — groups them by the
stored month name, and returns one row per occurring month holding the
group's `pnl` sum, its entry count and its mean `pnlPercentage`, with the
rows ordered ascending by the month grouping key; every matching entry's
month occurs among the returned keys. -/
theorem monthly_performance_spec (entries : List JournalEntry) (uid : Nat)
    (year : Option Int) (cy y : Int) (hy : y ≠ 0) :
    getMonthlyPerformance entries uid none cy =
      getMonthlyPerformance entries uid (some cy) cy ∧
    resolveYear (some y) cy = y ∧
    ((getMonthlyPerformance entries uid year cy).map
      MonthlyGroup.id).Sorted strKeyLe ∧
    (∀ g ∈ getMonthlyPerformance entries uid year cy,
      entries.filter (fun e => e.user == uid &&
          e.year == resolveYear year cy && e.month == g.id) ≠ [] ∧
      g.totalPnL = ((entries.filter (fun e => e.user == uid &&
          e.year == resolveYear year cy && e.month == g.id)).map
            JournalEntry.pnl).sum ∧
      g.totalTrades = (entries.filter (fun e => e.user == uid &&
          e.year == resolveYear year cy && e.month == g.id)).length ∧
      g.avgPnLPercentage = some (((entries.filter (fun e => e.user == uid &&
          e.year == resolveYear year cy && e.month == g.id)).map
            JournalEntry.pnlPercentage).sum /
        ((entries.filter (fun e => e.user == uid &&
          e.year == resolveYear year cy && e.month == g.id)).length))) ∧
    (∀ e ∈ entries, e.user = uid → e.year = resolveYear year cy →
      e.month ∈ (getMonthlyPerformance entries uid year cy).map
        MonthlyGroup.id) := by
  have hdef : resolveYear (none : Option Int) cy = resolveYear (some cy) cy := by
    simp [resolveYear, ite_self]
  refine ⟨?_, ?_, ?_, ?_, ?_⟩
  · simp only [getMonthlyPerformance, hdef]
  · simp [resolveYear, hy]
  · simp only [getMonthlyPerformance]
    refine List.pairwise_map.mpr (List.pairwise_map.mpr ?_)
    exact List.sorted_insertionSort strKeyLe _
  · intro g hg
    simp only [getMonthlyPerformance, List.mem_map,
      List.mem_insertionSort] at hg
    obtain ⟨k, hk, rfl⟩ := hg
    rw [List.mem_dedup, List.mem_map] at hk
    obtain ⟨e, hem, hemonth⟩ := hk
    have hne : (entries.filter (fun e => e.user == uid &&
        e.year == resolveYear year cy)).filter (fun e => e.month == k) ≠ [] := by
      apply List.ne_nil_of_mem (a := e)
      rw [List.mem_filter]
      exact ⟨hem, by simp [hemonth]⟩
    refine ⟨?_, ?_, ?_, ?_⟩ <;> dsimp only
    · rw [← month_group_filter]
      exact hne
    · rw [month_group_filter]
    · rw [month_group_filter]
    · rw [if_neg (by simpa [List.isEmpty_iff] using hne),
        month_group_filter]
  · intro e he hu hyy
    simp only [getMonthlyPerformance]
    have hkey : e.month ∈ List.insertionSort strKeyLe
        (((entries.filter (fun e =>
          e.user == uid && e.year == resolveYear year cy)).map
            JournalEntry.month).dedup) := by
      rw [List.mem_insertionSort, List.mem_dedup, List.mem_map]
      refine ⟨e, ?_, rfl⟩
      rw [List.mem_filter]
      exact ⟨he, by simp [hu, hyy]⟩
    exact List.mem_map_of_mem _ (List.mem_map_of_mem _ hkey)

/-- Two saved entries of user 1 in 2024, one in January (pnl 2) and one in
April (pnl -1). -/
def sampleEntries : List JournalEntry :=
  [presave
    { user := 1, stockName := "A", entryPrice := 10,
      entryDate := { year := 2024, month := 1, day := 5 },
      currentPrice := 12, status := Status.opened },
   presave
    { user := 1, stockName := "B", entryPrice := 10,
      entryDate := { year := 2024, month := 4, day := 2 },
      currentPrice := 9, status := Status.opened }]

/-- Witness for C3 on the two-entry store: the grouping keys come back as
["April", "January"] — ascending by the month-name string key (and thus
alphabetical, not chronological). -/
theorem monthly_performance_spec_witness :
    ((2024 : Int) ≠ 0) ∧
    resolveYear (some 2024) 2000 = 2024 ∧
    ((getMonthlyPerformance sampleEntries 1 (some 2024) 2024).map
      MonthlyGroup.id).Sorted strKeyLe ∧
    (getMonthlyPerformance sampleEntries 1 (some 2024) 2024).map
      MonthlyGroup.id = ["April", "January"] := by
  have h := monthly_performance_spec sampleEntries 1 (some 2024) 2024 2024
    (by decide)
  refine ⟨by decide, h.2.1, h.2.2.1, ?_⟩
  decide

end StockNote
